import Mathlib

/-!
Shallow embedding of the `orbital` gravity simulator's physics core,
translated from the Rust sources (`src/body.rs`, `src/physics/mod.rs`,
`src/physics/collisions.rs`, `src/physics/euler.rs`).

Modelling conventions:
* `f64` arithmetic is modelled over `ℝ`; `f64::powf` is real exponentiation
  (`Real.rpow`), `f64::sqrt` is `Real.sqrt`.
* A `HashMap<BodyId, Body>` keyed by each body's own id is modelled as a
  `List Body` in iteration order (ids are unique in the program: they come
  from a global atomic counter).  A `HashSet<BodyId>` filled by a single
  pass over distinct bodies is modelled as a `List ℕ` in insertion order.
* The ring-buffer position history (`AllocRingBuffer`, capacity 1000) is a
  list holding the most recent positions.
* `Option` models partiality: `none` stands for the `panic!` a failed
  `unwrap()` raises in `bin_bodies` (`max_by(...).unwrap()` on the empty
  selection).
* Presentation-only fields (`color`, `trail_parameter`) and the energy
  diagnostics returned by the integrators are not modelled; no claim
  mentions them.
-/

namespace Orbital

noncomputable section
open scoped Classical

/-- A 2-component real vector, `(f64, f64)` in the source. -/
abbrev Vec2 := ℝ × ℝ

/-- Source `f64::powf` over the reals. -/
def powf (x y : ℝ) : ℝ := Real.rpow x y

/-- Source `x.powf(2.0)` is plain squaring. -/
theorem powf_two (x : ℝ) : powf x 2 = x ^ 2 := by
  rw [powf, show (2 : ℝ) = ((2 : ℕ) : ℝ) by norm_num]
  exact Real.rpow_natCast x 2

/-- Source `MAXIMUM_POSITION_HISTORY` from `src/body.rs`. -/
def MAXIMUM_POSITION_HISTORY : ℕ := 1000

/-- Source `src/body.rs`: struct `Body` (minus the presentation-only `color` and
`trail_parameter` fields, which no physics code reads). -/
structure Body where
  id : ℕ
  mass : ℝ
  pos : Vec2
  physical_radius : ℝ
  draw_radius : ℝ
  velocity : Vec2
  accel : Vec2
  fixed : Bool
  pos_list : List Vec2

instance : Inhabited Body :=
  ⟨⟨0, 0, (0, 0), 0, 0, (0, 0), (0, 0), false, []⟩⟩

/-- Source `AllocRingBuffer::enqueue`: append, dropping the oldest entry when the
capacity (1000) is exceeded. -/
def enqueue_pos (l : List Vec2) (p : Vec2) : List Vec2 :=
  (l ++ [p]).drop ((l.length + 1) - MAXIMUM_POSITION_HISTORY)

/-- Source `Body::set_pos`: records the new position in the history ring buffer and
overwrites the current position. -/
def set_pos (b : Body) (p : Vec2) : Body :=
  { b with pos := p, pos_list := enqueue_pos b.pos_list p }

/-- Source `src/body.rs`: struct `OrbitalBodies`, the two-tier registry. -/
structure OrbitalBodies where
  tier0 : List Body
  tier1 : List Body

/-- Source `OrbitalBodies::iter`: tier-0 bodies then tier-1 bodies. -/
def OrbitalBodies.iter (r : OrbitalBodies) : List Body :=
  r.tier0 ++ r.tier1

/-- Source `HashMap::get` on a map keyed by body id. -/
def find_by_id (id : ℕ) (l : List Body) : Option Body :=
  l.find? (fun b => b.id == id)

/-- Source `OrbitalBodies::get_by_id`: look in tier 0, else tier 1. -/
def OrbitalBodies.get_by_id (r : OrbitalBodies) (id : ℕ) : Option Body :=
  (find_by_id id r.tier0).orElse (fun _ => find_by_id id r.tier1)

/-- Source `OrbitalBodies::remove`: drop the identity from both tiers. -/
def OrbitalBodies.remove (r : OrbitalBodies) (id : ℕ) : OrbitalBodies :=
  ⟨r.tier0.filter (fun b => b.id != id), r.tier1.filter (fun b => b.id != id)⟩

/-- Source `OrbitalBodies::len`. -/
def OrbitalBodies.len (r : OrbitalBodies) : ℕ :=
  r.tier0.length + r.tier1.length

/-- In-place mutation through `get_mut_by_id`: update the first body with the
given id, searching tier 0 before tier 1. -/
def update_first_by_id (id : ℕ) (f : Body → Body) : List Body → List Body
  | [] => []
  | b :: bs => if b.id = id then f b :: bs else b :: update_first_by_id id f bs

/-- Source `OrbitalBodies::get_mut_by_id` followed by a field update: tier 0 is
searched first, then tier 1 (mirrors the `or_else` in the source). -/
def OrbitalBodies.modify_by_id (r : OrbitalBodies) (id : ℕ) (f : Body → Body) :
    OrbitalBodies :=
  if (find_by_id id r.tier0).isSome then ⟨update_first_by_id id f r.tier0, r.tier1⟩
  else ⟨r.tier0, update_first_by_id id f r.tier1⟩

/-! ## `src/physics/mod.rs`: distance, softening, acceleration -/

/-- Gravity constant `G = 6.6674 * 1E-11`. -/
def G : ℝ := 6.6674 * 10 ^ (-(11 : ℤ))

/-- Source `distance`: returns `(d², d)` for the Euclidean separation `d`
(`d² = dx.powf(2.0) + dy.powf(2.0)`). -/
def distance (b1 b2 : Body) : ℝ × ℝ :=
  (powf (b1.pos.1 - b2.pos.1) 2 + powf (b1.pos.2 - b2.pos.2) 2,
   Real.sqrt (powf (b1.pos.1 - b2.pos.1) 2 + powf (b1.pos.2 - b2.pos.2) 2))

/-- The softening length of `pairwise_acceleration`:
`(0.7 * (mi.min(mj) / mi.max(mj)).sqrt()).min(1.) * (r_i + r_j)`. -/
def softening (pullee pulling : Body) : ℝ :=
  min (0.7 * Real.sqrt (min pullee.mass pulling.mass / max pullee.mass pulling.mass)) 1
    * (pullee.physical_radius + pulling.physical_radius)

/-- The denominator of `pairwise_acceleration`:
`(d2 + softening.powf(2.)).powf(1.5)`. -/
def softened_distance (pullee pulling : Body) : ℝ :=
  powf ((distance pullee pulling).1 + powf (softening pullee pulling) 2) 1.5

/-- Source `pairwise_acceleration`: gravitational pull of `pulling` on `pullee`. -/
def pairwise_acceleration (pullee pulling : Body) : Vec2 :=
  let body_grav_constant := -G * pulling.mass
  (body_grav_constant * (pullee.pos.1 - pulling.pos.1) / softened_distance pullee pulling,
   body_grav_constant * (pullee.pos.2 - pulling.pos.2) / softened_distance pullee pulling)

/-- Componentwise sum of acceleration contributions (the `+=` accumulation). -/
def sum_vecs (l : List Vec2) : Vec2 :=
  l.foldl (fun a v => (a.1 + v.1, a.2 + v.2)) (0, 0)

/-- Acceleration written into a tier-0 pullee by `update_acceleration`: zero
for fixed bodies, otherwise the sum over every other tier-0 body. -/
def tier0_accel (tier0 : List Body) (pullee : Body) : Vec2 :=
  if pullee.fixed then (0, 0)
  else sum_vecs ((tier0.filter (fun p => p.id != pullee.id)).map
    (pairwise_acceleration pullee))

/-- Acceleration written into a tier-1 pullee by `update_acceleration`: zero
for fixed bodies, otherwise the sum over all tier-0 bodies. -/
def tier1_accel (tier0 : List Body) (pullee : Body) : Vec2 :=
  if pullee.fixed then (0, 0)
  else sum_vecs (tier0.map (pairwise_acceleration pullee))

/-- Source `update_acceleration`: writes each body's new acceleration into the
registry.  (The potential-energy accumulator and the returned id-to-
acceleration map are not modelled; no claim mentions them, and the map
holds exactly the written-back values.) -/
def update_acceleration (r : OrbitalBodies) : OrbitalBodies :=
  ⟨r.tier0.map (fun b => { b with accel := tier0_accel r.tier0 b }),
   r.tier1.map (fun b => { b with accel := tier1_accel r.tier0 b })⟩

/-! ## `src/physics/euler.rs` -/

/-- The body of the Euler update loop: `v += a·dt; r += v·dt` with the new
velocity, through `set_pos`.  Note the loop runs for every body — there is
no `fixed` check in `Euler::step`. -/
def euler_step_body (dt : ℝ) (b : Body) : Body :=
  let v : Vec2 := (b.velocity.1 + b.accel.1 * dt, b.velocity.2 + b.accel.2 * dt)
  set_pos { b with velocity := v } (b.pos.1 + v.1 * dt, b.pos.2 + v.2 * dt)

/-- Source `Euler::step`: one `update_acceleration`, then the per-body update over
all bodies of both tiers. -/
def euler_step (r : OrbitalBodies) (dt : ℝ) : OrbitalBodies :=
  let r1 := update_acceleration r
  ⟨r1.tier0.map (euler_step_body dt), r1.tier1.map (euler_step_body dt)⟩

/-! ## `src/physics/mod.rs`: Kepler orbit initializer -/

/-- Source `OrbitParameters`: semi-major axis, eccentricity, true anomaly. -/
structure OrbitParameters where
  a : ℝ
  e : ℝ
  theta : ℝ

/-- Source `kepler_orbit`: overwrites the orbiting body's position and velocity with
the reduced-mass two-body solution scaled by the reference-body mass
fraction.  (The reference body's position is never read.) -/
def kepler_orbit (orb : OrbitParameters) (orbiting_body point_of_reference : Body) :
    Body :=
  let mu := G * (orbiting_body.mass + point_of_reference.mass)
  let p := orb.a * (1 - powf orb.e 2)
  let radius := p / (1 + orb.e * Real.cos orb.theta)
  let rx := Real.cos orb.theta * radius
  let ry := Real.sin orb.theta * radius
  let factor := Real.sqrt (mu / p)
  let vx := -Real.sin orb.theta * factor
  let vy := (Real.cos orb.theta + orb.e) * factor
  let total_mass := orbiting_body.mass + point_of_reference.mass
  let m2_mt := point_of_reference.mass / total_mass
  set_pos { orbiting_body with velocity := (-m2_mt * vx, -m2_mt * vy) }
    (-m2_mt * rx, -m2_mt * ry)

/-! ## `src/physics/collisions.rs` -/

/-- Source `AU` from `src/main.rs` (`SUN_EARTH_DISTANCE`). -/
def AU : ℝ := 149597870700

/-- Source `MAX_DISTANCE_DEFAULT = AU * 10`. -/
def MAX_DISTANCE_DEFAULT : ℝ := AU * 10

/-- Source `BIN_WIDTH_DEFAULT = AU / 2`. -/
def BIN_WIDTH_DEFAULT : ℝ := AU / 2

/-- Source `BinBodiesParam`. -/
structure BinBodiesParam where
  max_distance : ℝ
  bin_width : ℝ

/-- Source `BinBodiesParam::default()`. -/
def BinBodiesParam.default : BinBodiesParam :=
  ⟨MAX_DISTANCE_DEFAULT, BIN_WIDTH_DEFAULT⟩

/-- Source `CollisionResult`. -/
inductive CollisionResult where
  | Merge (body_id : ℕ) (new_mass : ℝ) (new_velocity : Vec2)
  | Destroyed (body_id : ℕ)

/-- Source `collides`: centers closer than the sum of the physical radii. -/
def collides (body1 body2 : Body) : Prop :=
  (distance body1 body2).2 ≤ body1.physical_radius + body2.physical_radius

/-- Source `compute_merger`: the winner keeps its id, gains the destroyed body's
mass, and takes the mass-weighted average velocity. -/
def compute_merger (winner destroyed : Body) : CollisionResult :=
  let new_mass := winner.mass + destroyed.mass
  .Merge winner.id new_mass
    ((winner.velocity.1 * winner.mass + destroyed.velocity.1 * destroyed.mass) / new_mass,
     (winner.velocity.2 * winner.mass + destroyed.velocity.2 * destroyed.mass) / new_mass)

/-- Source `append_collision`: on overlap, push a `Destroyed` for the lighter body
and the merger for the heavier one (ties go to `body2`; the source's
`(largest, smallest)` tuple selection is inlined into the two branches). -/
def append_collision (body1 body2 : Body) : List CollisionResult :=
  if collides body1 body2 then
    if body1.mass > body2.mass then
      [.Destroyed body2.id, compute_merger body1 body2]
    else
      [.Destroyed body1.id, compute_merger body2 body1]
  else []

/-- Source `compute_pairwise_collision_slice`: the double loop over all ordered
index pairs `i ≠ j`. -/
def compute_pairwise_collision_slice (bodies : List Body) : List CollisionResult :=
  (List.range bodies.length).flatMap fun i =>
    (List.range bodies.length).flatMap fun j =>
      if i = j then []
      else append_collision (bodies.getD i default) (bodies.getD j default)

/-- Source `compute_pairwise_collisions`: the exhaustive pass over the registry. -/
def compute_pairwise_collisions (r : OrbitalBodies) : List CollisionResult :=
  compute_pairwise_collision_slice r.iter

/-- Source `body_in_range` closure of `bin_bodies`. -/
def body_in_range (max_distance : ℝ) (b : Body) : Prop :=
  Real.sqrt (powf b.pos.1 2 + powf b.pos.2 2) < max_distance

/-- Source `Iterator::max_by` with the source's `a >= b` comparator: the maximum of
a nonempty list, `None` on an empty one. -/
def max_list : List ℝ → Option ℝ
  | [] => none
  | x :: xs => some (xs.foldl max x)

/-- Source `bins[index].insert(body.id())` on list-modelled bins (each body is
visited once, so no duplicate insertions occur). -/
def insert_bin (bins : List (List ℕ)) (idx : ℕ) (id : ℕ) : List (List ℕ) :=
  bins.set idx (bins.getD idx [] ++ [id])

/-- The `body_in_range` filter pass of `bin_bodies`. -/
def in_range_bodies (r : OrbitalBodies) (max_distance : ℝ) : List Body :=
  r.iter.flatMap (fun b => if body_in_range max_distance b then [b] else [])

/-- The binning pass of `bin_bodies` once the bounding half-width `m` has
been found: `width = m * 2`, `bin_count = (width / bin_width) as usize`
(`Nat.floor` models the saturating float-to-usize cast), a `bin_count²` grid,
and — when at least one bin exists — one clamped cell insertion per in-range
body. -/
def bins_of (r : OrbitalBodies) (params : BinBodiesParam) (m : ℝ) :
    List (List ℕ) :=
  let width := m * 2
  let bin_count := ⌊width / params.bin_width⌋₊
  let bins0 : List (List ℕ) := List.replicate (bin_count * bin_count) []
  if 0 < bins0.length then
    (in_range_bodies r params.max_distance).foldl (fun bins b =>
      let offset := width / 2
      let bx := min ⌊(b.pos.1 + offset) / params.bin_width⌋₊ (bin_count - 1)
      let by_ := min ⌊(b.pos.2 + offset) / params.bin_width⌋₊ (bin_count - 1)
      insert_bin bins (bx + by_ * bin_count) b.id) bins0
  else bins0

/-- Source `bin_bodies`: `none` models the panic of `max_by(..).unwrap()` when no
body is within `max_distance` of the origin. -/
def bin_bodies (r : OrbitalBodies) (params : BinBodiesParam) :
    Option (List (List ℕ)) :=
  match max_list ((in_range_bodies r params.max_distance).map
      (fun b => max |b.pos.1| |b.pos.2|)) with
  | none => none
  | some m => some (bins_of r params m)

/-- Source `compute_collisions_spatial_hash`: bin, then run the pairwise slice
inside each bin independently and concatenate. -/
def compute_collisions_spatial_hash (r : OrbitalBodies) :
    Option (List CollisionResult) :=
  (bin_bodies r BinBodiesParam.default).map fun bins =>
    (bins.map fun bin =>
      compute_pairwise_collision_slice
        (bin.map fun id => (r.get_by_id id).getD default)).flatten

/-- One iteration of the apply loop in `handle_collisions`. -/
def apply_collision (r : OrbitalBodies) : CollisionResult → OrbitalBodies
  | .Merge body_id new_mass new_velocity =>
    if (r.get_by_id body_id).isSome then
      r.modify_by_id body_id (fun b => { b with mass := new_mass, velocity := new_velocity })
    else r
  | .Destroyed body_id => r.remove body_id

/-- The apply loop of `handle_collisions`, in instruction order. -/
def apply_collisions (r : OrbitalBodies) (cs : List CollisionResult) : OrbitalBodies :=
  cs.foldl apply_collision r

/-- Source `handle_collisions`: compute the spatial-hash outcomes and apply them;
`none` when `bin_bodies` panics. -/
def handle_collisions (r : OrbitalBodies) : Option OrbitalBodies :=
  (compute_collisions_spatial_hash r).map (apply_collisions r)

/-- Number of `Destroyed` instructions recorded for a given identity. -/
def count_destroyed (id : ℕ) (l : List CollisionResult) : ℕ :=
  l.countP (fun c => match c with
    | .Destroyed i => i == id
    | _ => false)

/-- Number of `Merge` instructions recorded for a given surviving identity. -/
def count_merges (id : ℕ) (l : List CollisionResult) : ℕ :=
  l.countP (fun c => match c with
    | .Merge i _ _ => i == id
    | _ => false)

/-- Shorthand used to build concrete bodies in witnesses (id, mass, position,
physical radius, velocity, fixed flag; the remaining fields as `Body::new`
initialises them for the physics core). -/
def mk_body (id : ℕ) (mass : ℝ) (pos : Vec2) (radius : ℝ) (vel : Vec2)
    (fixed : Bool) : Body :=
  ⟨id, mass, pos, radius, 1, vel, (0, 0), fixed, []⟩

/-! ## Registry helper lemmas -/

theorem find_by_id_eq_none {i : ℕ} {l : List Body} :
    find_by_id i l = none ↔ ∀ b ∈ l, b.id ≠ i := by
  simp [find_by_id, List.find?_eq_none]

theorem get_by_id_eq_none_iff (r : OrbitalBodies) (i : ℕ) :
    r.get_by_id i = none ↔
      find_by_id i r.tier0 = none ∧ find_by_id i r.tier1 = none := by
  cases h : find_by_id i r.tier0 <;>
    simp [OrbitalBodies.get_by_id, h, Option.orElse]

theorem get_by_id_isSome_iff (r : OrbitalBodies) (i : ℕ) :
    (r.get_by_id i).isSome ↔
      (find_by_id i r.tier0).isSome ∨ (find_by_id i r.tier1).isSome := by
  cases h : find_by_id i r.tier0 <;>
    simp [OrbitalBodies.get_by_id, h, Option.orElse]

theorem remove_eq_self (r : OrbitalBodies) (i : ℕ) (h : r.get_by_id i = none) :
    r.remove i = r := by
  obtain ⟨h0, h1⟩ := (get_by_id_eq_none_iff r i).mp h
  rw [find_by_id_eq_none] at h0 h1
  have e0 : r.tier0.filter (fun b => b.id != i) = r.tier0 :=
    List.filter_eq_self.mpr fun b hb => by simpa using h0 b hb
  have e1 : r.tier1.filter (fun b => b.id != i) = r.tier1 :=
    List.filter_eq_self.mpr fun b hb => by simpa using h1 b hb
  unfold OrbitalBodies.remove
  rw [e0, e1]

theorem remove_idem (r : OrbitalBodies) (i : ℕ) :
    (r.remove i).remove i = r.remove i := by
  unfold OrbitalBodies.remove
  simp [List.filter_filter]

theorem find_by_id_remove {i : ℕ} {l : List Body} :
    find_by_id i (l.filter (fun b => b.id != i)) = none := by
  rw [find_by_id_eq_none]
  intro b hb
  simpa using (List.of_mem_filter hb)

theorem get_by_id_remove_self (r : OrbitalBodies) (i : ℕ) :
    (r.remove i).get_by_id i = none := by
  rw [get_by_id_eq_none_iff]
  exact ⟨find_by_id_remove, find_by_id_remove⟩

/-! ## Collision geometry helpers -/

theorem distance_comm (b1 b2 : Body) : distance b1 b2 = distance b2 b1 := by
  unfold distance
  rw [powf_two, powf_two, powf_two, powf_two,
    show (b1.pos.1 - b2.pos.1) ^ 2 = (b2.pos.1 - b1.pos.1) ^ 2 by ring,
    show (b1.pos.2 - b2.pos.2) ^ 2 = (b2.pos.2 - b1.pos.2) ^ 2 by ring]

theorem collides_comm (b1 b2 : Body) : collides b1 b2 ↔ collides b2 b1 := by
  unfold collides
  rw [distance_comm, add_comm b1.physical_radius]

theorem collides_same_pos (b1 b2 : Body) (hp : b1.pos = b2.pos)
    (hr : 0 ≤ b1.physical_radius + b2.physical_radius) : collides b1 b2 := by
  unfold collides distance
  simp only [hp, sub_self, powf_two]
  simpa using hr

/-!
## C5 — momentum-conserving merge

Claim C5: the Merge outcome of a collision has mass `m1+m2` and velocity
`(m1·v1 + m2·v2)/(m1+m2)`, the mass-weighted average.
-/

/-- C5 (confirmed): for every pair of colliding bodies, `append_collision`
records one Merge whose surviving identity is the heavier body's, whose mass
is exactly the sum of the two masses, and whose velocity is the mass-weighted
average `(m1·v1 + m2·v2)/(m1+m2)` of the two velocities. -/
theorem C5_merge_momentum (b1 b2 : Body) (hc : collides b1 b2) :
    append_collision b1 b2 =
      [.Destroyed (if b1.mass > b2.mass then b2.id else b1.id),
       .Merge (if b1.mass > b2.mass then b1.id else b2.id) (b1.mass + b2.mass)
         ((b1.mass * b1.velocity.1 + b2.mass * b2.velocity.1) / (b1.mass + b2.mass),
          (b1.mass * b1.velocity.2 + b2.mass * b2.velocity.2) / (b1.mass + b2.mass))] := by
  unfold append_collision compute_merger
  rw [if_pos hc]
  by_cases h : b1.mass > b2.mass
  · simp only [if_pos h, List.cons.injEq, CollisionResult.Merge.injEq, Prod.mk.injEq,
      and_true, true_and]
    and_intros <;> ring
  · simp only [if_neg h, List.cons.injEq, CollisionResult.Merge.injEq, Prod.mk.injEq,
      and_true, true_and]
    and_intros <;> ring

def c5_heavy : Body := mk_body 1 2 (0, 0) 1 (3, 0) false

def c5_light : Body := mk_body 2 1 (0, 0) 1 (0, 0) false

/-- Witness for C5 at a concrete colliding pair (masses 2 and 1 at the same
point). -/
theorem C5_merge_momentum_witness :
    collides c5_heavy c5_light ∧
    append_collision c5_heavy c5_light =
      [.Destroyed (if c5_heavy.mass > c5_light.mass then c5_light.id else c5_heavy.id),
       .Merge (if c5_heavy.mass > c5_light.mass then c5_heavy.id else c5_light.id)
         (c5_heavy.mass + c5_light.mass)
         ((c5_heavy.mass * c5_heavy.velocity.1 + c5_light.mass * c5_light.velocity.1) /
            (c5_heavy.mass + c5_light.mass),
          (c5_heavy.mass * c5_heavy.velocity.2 + c5_light.mass * c5_light.velocity.2) /
            (c5_heavy.mass + c5_light.mass))] :=
  have hc : collides c5_heavy c5_light :=
    collides_same_pos _ _ rfl (by norm_num [c5_heavy, c5_light, mk_body])
  ⟨hc, C5_merge_momentum c5_heavy c5_light hc⟩

/-!
## C7 — idempotent removal, stale merges skipped
-/

/-- C7 (confirmed): removing an absent identity is a no-op, removal is
idempotent, and the apply loop silently skips a Merge whose surviving
identity is no longer in the registry. -/
theorem C7_remove_idempotent_stale_merge_skipped (r : OrbitalBodies) (i : ℕ)
    (nm : ℝ) (nv : Vec2) :
    (r.get_by_id i = none → r.remove i = r) ∧
    ((r.remove i).remove i = r.remove i) ∧
    (r.get_by_id i = none → apply_collisions r [.Merge i nm nv] = r) := by
  refine ⟨fun h => remove_eq_self r i h, remove_idem r i, fun h => ?_⟩
  unfold apply_collisions
  simp [apply_collision, h]

def c7_reg : OrbitalBodies := ⟨[mk_body 5 1 (0, 0) 1 (0, 0) false], []⟩

/-! ## Pairwise-slice structure lemmas -/

theorem slice_two (b1 b2 : Body) :
    compute_pairwise_collision_slice [b1, b2] =
      append_collision b1 b2 ++ append_collision b2 b1 := by
  simp [compute_pairwise_collision_slice, List.range_succ]

theorem append_collision_swap (b1 b2 : Body) (hm : b2.mass < b1.mass) :
    append_collision b2 b1 = append_collision b1 b2 := by
  unfold append_collision
  by_cases hc : collides b1 b2
  · rw [if_pos ((collides_comm b1 b2).mp hc), if_pos hc,
      if_neg (not_lt.mpr hm.le), if_pos hm]
  · rw [if_neg (fun h => hc ((collides_comm b2 b1).mp h)), if_neg hc]

theorem slice_pair (b1 b2 : Body) (hm : b2.mass < b1.mass) (hc : collides b1 b2) :
    compute_pairwise_collision_slice [b1, b2] =
      [.Destroyed b2.id, compute_merger b1 b2,
       .Destroyed b2.id, compute_merger b1 b2] := by
  rw [slice_two, append_collision_swap b1 b2 hm]
  unfold append_collision
  rw [if_pos hc, if_pos hm]
  rfl

/-! ## Update/modify helper lemmas -/

theorem update_first_map_id {f : Body → Body} (hf : ∀ b, (f b).id = b.id)
    (i : ℕ) (l : List Body) :
    (update_first_by_id i f l).map Body.id = l.map Body.id := by
  induction l with
  | nil => rfl
  | cons b bs ih =>
    unfold update_first_by_id
    by_cases h : b.id = i
    · simp [h, hf]
    · simp [h, ih]

theorem find_by_id_none_iff_map {i : ℕ} {l : List Body} :
    find_by_id i l = none ↔ i ∉ l.map Body.id := by
  rw [find_by_id_eq_none]
  constructor
  · intro h hmem
    obtain ⟨b, hb, hbe⟩ := List.mem_map.mp hmem
    exact h b hb hbe
  · intro h b hb he
    exact h (List.mem_map.mpr ⟨b, hb, he⟩)

theorem update_first_idem {f : Body → Body} (hf : ∀ b, (f b).id = b.id)
    (hff : ∀ b, f (f b) = f b) (i : ℕ) (l : List Body) :
    update_first_by_id i f (update_first_by_id i f l) = update_first_by_id i f l := by
  induction l with
  | nil => rfl
  | cons b bs ih =>
    by_cases h : b.id = i
    · have hfb : (f b).id = i := by rw [hf b]; exact h
      simp only [update_first_by_id, if_pos h, if_pos hfb, hff]
    · simp only [update_first_by_id, if_neg h, ih]

theorem find_isSome_update {f : Body → Body} (hf : ∀ b, (f b).id = b.id)
    (i j : ℕ) (l : List Body) :
    (find_by_id j (update_first_by_id i f l)).isSome ↔ (find_by_id j l).isSome := by
  rw [Option.isSome_iff_ne_none, Option.isSome_iff_ne_none]
  exact not_congr (by rw [find_by_id_none_iff_map, find_by_id_none_iff_map,
    update_first_map_id hf])

theorem get_by_id_none_modify {f : Body → Body} (hf : ∀ b, (f b).id = b.id)
    {r : OrbitalBodies} {i j : ℕ} (h : r.get_by_id j = none) :
    ((r.modify_by_id i f).get_by_id j) = none := by
  obtain ⟨h0, h1⟩ := (get_by_id_eq_none_iff r j).mp h
  rw [find_by_id_none_iff_map] at h0 h1
  unfold OrbitalBodies.modify_by_id
  split <;>
    refine (get_by_id_eq_none_iff _ j).mpr
      ⟨find_by_id_none_iff_map.mpr ?_, find_by_id_none_iff_map.mpr ?_⟩ <;>
    simp only [update_first_map_id hf] <;> assumption

theorem get_by_id_isSome_modify {f : Body → Body} (hf : ∀ b, (f b).id = b.id)
    (r : OrbitalBodies) (i j : ℕ) :
    ((r.modify_by_id i f).get_by_id j).isSome ↔ (r.get_by_id j).isSome := by
  unfold OrbitalBodies.modify_by_id
  split <;> rw [get_by_id_isSome_iff, get_by_id_isSome_iff] <;>
    simp only [find_isSome_update hf]

theorem modify_idem {f : Body → Body} (hf : ∀ b, (f b).id = b.id)
    (hff : ∀ b, f (f b) = f b) (r : OrbitalBodies) (i : ℕ) :
    (r.modify_by_id i f).modify_by_id i f = r.modify_by_id i f := by
  unfold OrbitalBodies.modify_by_id
  by_cases h : (find_by_id i r.tier0).isSome
  · rw [if_pos h]
    have h' : (find_by_id i (update_first_by_id i f r.tier0)).isSome := by
      rw [find_isSome_update hf]; exact h
    simp only [if_pos h', update_first_idem hf hff]
  · rw [if_neg h]
    simp only [if_neg h, update_first_idem hf hff]

/-- Applying `Destroyed i` then `Merge j _ _` a second time is a no-op. -/
theorem apply_DM_twice (r : OrbitalBodies) (i j : ℕ) (nm : ℝ) (nv : Vec2) :
    apply_collision (apply_collision
        (apply_collision (apply_collision r (.Destroyed i)) (.Merge j nm nv))
        (.Destroyed i)) (.Merge j nm nv)
      = apply_collision (apply_collision r (.Destroyed i)) (.Merge j nm nv) := by
  have hfid : ∀ b : Body,
      ((fun b : Body => { b with mass := nm, velocity := nv }) b).id = b.id := fun _ => rfl
  have hfidem : ∀ b : Body,
      (fun b : Body => { b with mass := nm, velocity := nv })
        ((fun b : Body => { b with mass := nm, velocity := nv }) b)
      = (fun b : Body => { b with mass := nm, velocity := nv }) b := fun _ => rfl
  have hD : apply_collision r (.Destroyed i) = r.remove i := rfl
  have hno : (r.remove i).get_by_id i = none := get_by_id_remove_self r i
  by_cases hj : ((r.remove i).get_by_id j).isSome
  · have h2 : apply_collision (r.remove i) (.Merge j nm nv)
        = (r.remove i).modify_by_id j (fun b : Body => { b with mass := nm, velocity := nv }) := by
      simp only [apply_collision]
      rw [if_pos hj]
    have hno2 : ((r.remove i).modify_by_id j
        (fun b : Body => { b with mass := nm, velocity := nv })).get_by_id i = none :=
      get_by_id_none_modify hfid hno
    have h3 : apply_collision ((r.remove i).modify_by_id j
        (fun b : Body => { b with mass := nm, velocity := nv })) (.Destroyed i)
        = (r.remove i).modify_by_id j (fun b : Body => { b with mass := nm, velocity := nv }) :=
      remove_eq_self _ i hno2
    have hj2 : (((r.remove i).modify_by_id j
        (fun b : Body => { b with mass := nm, velocity := nv })).get_by_id j).isSome :=
      (get_by_id_isSome_modify hfid _ j j).mpr hj
    rw [hD, h2, h3]
    simp only [apply_collision]
    rw [if_pos hj2]
    exact modify_idem hfid hfidem _ j
  · have h2 : apply_collision (r.remove i) (.Merge j nm nv) = r.remove i := by
      simp only [apply_collision]
      rw [if_neg hj]
    rw [hD, h2]
    have h3 : apply_collision (r.remove i) (.Destroyed i) = r.remove i :=
      remove_eq_self _ i hno
    rw [h3, h2]

/-!
## C4 — each detected collision: one Destroy + one Merge?
-/

/-- C4 counterexample: for the concrete colliding pair with masses 2 and 1,
one pairwise pass records the lighter body's `Destroyed` twice and the
heavier body's `Merge` twice — not "exactly one" of each, because the double
loop visits the unordered pair in both orders. -/
theorem C4_counterexample :
    count_destroyed c5_light.id (compute_pairwise_collision_slice [c5_heavy, c5_light]) = 2 ∧
    count_merges c5_heavy.id (compute_pairwise_collision_slice [c5_heavy, c5_light]) = 2 := by
  have hm : c5_light.mass < c5_heavy.mass := by norm_num [c5_heavy, c5_light, mk_body]
  have hc : collides c5_heavy c5_light :=
    collides_same_pos _ _ rfl (by norm_num [c5_heavy, c5_light, mk_body])
  rw [slice_pair c5_heavy c5_light hm hc]
  simp [count_destroyed, count_merges, compute_merger, List.countP_cons]

/-- C4 (corrected): the pairwise search detects every colliding unordered
pair twice (once per loop order); each of the two detections contributes
exactly one `Destroyed` for the lighter body and one `Merge` for the heavier
one, so the whole slice holds each instruction twice and records the
destroyed identity twice. -/
theorem C4_two_detections (b1 b2 : Body) (hm : b2.mass < b1.mass)
    (hc : collides b1 b2) :
    compute_pairwise_collision_slice [b1, b2] =
      [.Destroyed b2.id, compute_merger b1 b2,
       .Destroyed b2.id, compute_merger b1 b2] ∧
    append_collision b1 b2 = [.Destroyed b2.id, compute_merger b1 b2] ∧
    count_destroyed b2.id (compute_pairwise_collision_slice [b1, b2]) = 2 := by
  refine ⟨slice_pair b1 b2 hm hc, ?_, ?_⟩
  · unfold append_collision
    rw [if_pos hc, if_pos hm]
  · rw [slice_pair b1 b2 hm hc]
    simp [count_destroyed, compute_merger, List.countP_cons]

/-- Witness for C4 at the concrete pair with masses 2 and 1. -/
theorem C4_two_detections_witness :
    c5_light.mass < c5_heavy.mass ∧ collides c5_heavy c5_light ∧
    compute_pairwise_collision_slice [c5_heavy, c5_light] =
      [.Destroyed c5_light.id, compute_merger c5_heavy c5_light,
       .Destroyed c5_light.id, compute_merger c5_heavy c5_light] :=
  have hm : c5_light.mass < c5_heavy.mass := by norm_num [c5_heavy, c5_light, mk_body]
  have hc : collides c5_heavy c5_light :=
    collides_same_pos _ _ rfl (by norm_num [c5_heavy, c5_light, mk_body])
  ⟨hm, hc, (C4_two_detections c5_heavy c5_light hm hc).1⟩

/-!
## C10 — duplicated instructions and registry state
-/

def c10_eq1 : Body := mk_body 11 1 (5, 5) 1 (0, 0) false

def c10_eq2 : Body := mk_body 12 1 (5, 5) 1 (4, 0) false

def c10_reg : OrbitalBodies := ⟨[c10_eq1, c10_eq2], []⟩

/-- C10 counterexample: for a colliding pair of EQUAL masses, the two
detections produce two different Destroy/Merge pairs (each order picks the
other body as survivor); applying all four instructions empties the
registry, which is not the state left by one Destroy plus one Merge. -/
theorem C10_counterexample :
    (apply_collisions c10_reg (compute_pairwise_collision_slice [c10_eq1, c10_eq2])).len = 0 ∧
    (apply_collisions c10_reg
      [.Destroyed c10_eq1.id, compute_merger c10_eq2 c10_eq1]).len = 1 := by
  have hc : collides c10_eq1 c10_eq2 :=
    collides_same_pos _ _ rfl (by norm_num [c10_eq1, c10_eq2, mk_body])
  have hc' : collides c10_eq2 c10_eq1 := (collides_comm _ _).mp hc
  have hm : ¬ (c10_eq1.mass > c10_eq2.mass) := by norm_num [c10_eq1, c10_eq2, mk_body]
  have hm' : ¬ (c10_eq2.mass > c10_eq1.mass) := by norm_num [c10_eq1, c10_eq2, mk_body]
  rw [slice_two]
  unfold append_collision
  rw [if_pos hc, if_neg hm, if_pos hc', if_neg hm']
  simp [apply_collisions, apply_collision, compute_merger, c10_reg, c10_eq1, c10_eq2,
    mk_body, OrbitalBodies.remove, OrbitalBodies.get_by_id, find_by_id,
    OrbitalBodies.modify_by_id, update_first_by_id, OrbitalBodies.len,
    Option.orElse, List.find?, List.filter]

/-- C10 (corrected): when the two colliding bodies have DISTINCT masses, the
two detections duplicate one and the same Destroy/Merge pair, and applying
all four instructions leaves any registry in exactly the state of applying
one Destroy and one Merge (the Merge carries precomputed mass and velocity,
so re-applying it is a no-op, and a repeated Destroy is a no-op). -/
theorem C10_duplicate_instructions_harmless (b1 b2 : Body) (r : OrbitalBodies)
    (hm : b2.mass < b1.mass) (hc : collides b1 b2) :
    apply_collisions r (compute_pairwise_collision_slice [b1, b2]) =
      apply_collisions r [.Destroyed b2.id, compute_merger b1 b2] := by
  rw [slice_pair b1 b2 hm hc]
  show apply_collisions r
    [.Destroyed b2.id, compute_merger b1 b2, .Destroyed b2.id, compute_merger b1 b2]
    = _
  unfold apply_collisions
  simp only [List.foldl_cons, List.foldl_nil]
  unfold compute_merger
  exact apply_DM_twice r b2.id b1.id _ _

/-- Witness for C10 at the concrete pair with masses 2 and 1 in a two-body
registry. -/
theorem C10_duplicate_instructions_harmless_witness :
    c5_light.mass < c5_heavy.mass ∧ collides c5_heavy c5_light ∧
    apply_collisions ⟨[c5_heavy, c5_light], []⟩
        (compute_pairwise_collision_slice [c5_heavy, c5_light]) =
      apply_collisions ⟨[c5_heavy, c5_light], []⟩
        [.Destroyed c5_light.id, compute_merger c5_heavy c5_light] :=
  have hm : c5_light.mass < c5_heavy.mass := by norm_num [c5_heavy, c5_light, mk_body]
  have hc : collides c5_heavy c5_light :=
    collides_same_pos _ _ rfl (by norm_num [c5_heavy, c5_light, mk_body])
  ⟨hm, hc, C10_duplicate_instructions_harmless c5_heavy c5_light _ hm hc⟩

/-- Witness for C7: identity 6 is absent from a one-body registry; removing
it and merging into it change nothing. -/
theorem C7_witness :
    c7_reg.get_by_id 6 = none ∧
    c7_reg.remove 6 = c7_reg ∧
    (c7_reg.remove 6).remove 6 = c7_reg.remove 6 ∧
    apply_collisions c7_reg [.Merge 6 1 (0, 0)] = c7_reg :=
  have h : c7_reg.get_by_id 6 = none := by
    simp [c7_reg, OrbitalBodies.get_by_id, find_by_id, mk_body, Option.orElse]
  ⟨h, (C7_remove_idempotent_stale_merge_skipped c7_reg 6 1 (0, 0)).1 h,
    (C7_remove_idempotent_stale_merge_skipped c7_reg 6 1 (0, 0)).2.1,
    (C7_remove_idempotent_stale_merge_skipped c7_reg 6 1 (0, 0)).2.2 h⟩


/-!
## C9 — softening guards the force denominator
-/

/-- C9 (confirmed): for equal (positive) masses and positive physical radii,
the softening length equals `0.7` times the sum of the two physical radii,
is strictly positive, and the force denominator `(d² + s²)^1.5` is strictly
positive — even at zero separation. -/
theorem C9_softening_positive (b1 b2 : Body) (hm : b1.mass = b2.mass)
    (h0 : 0 < b1.mass) (hr1 : 0 < b1.physical_radius)
    (hr2 : 0 < b2.physical_radius) :
    softening b1 b2 = 0.7 * (b1.physical_radius + b2.physical_radius) ∧
    0 < softening b1 b2 ∧
    0 < softened_distance b1 b2 := by
  have hs : softening b1 b2 = 0.7 * (b1.physical_radius + b2.physical_radius) := by
    unfold softening
    rw [hm, min_self, max_self, div_self (ne_of_gt (hm ▸ h0)), Real.sqrt_one,
      mul_one, min_eq_left (by norm_num : (0.7 : ℝ) ≤ 1)]
  have hradd : 0 < b1.physical_radius + b2.physical_radius := add_pos hr1 hr2
  have hpos : 0 < softening b1 b2 := by
    rw [hs]
    exact mul_pos (by norm_num) hradd
  refine ⟨hs, hpos, ?_⟩
  have hbase : 0 < (distance b1 b2).1 + powf (softening b1 b2) 2 := by
    have h1 : 0 ≤ (distance b1 b2).1 := by
      rw [show (distance b1 b2).1
        = powf (b1.pos.1 - b2.pos.1) 2 + powf (b1.pos.2 - b2.pos.2) 2 from rfl,
        powf_two, powf_two]
      positivity
    have h2 : 0 < powf (softening b1 b2) 2 := by
      rw [powf_two]
      positivity
    linarith
  unfold softened_distance powf
  exact Real.rpow_pos_of_pos hbase _

def c9_b1 : Body := mk_body 21 1 (0, 0) 1 (0, 0) false

def c9_b2 : Body := mk_body 22 1 (0, 0) 1 (0, 0) false

/-- Witness for C9: two equal-mass unit-radius bodies at the same point. -/
theorem C9_softening_positive_witness :
    c9_b1.mass = c9_b2.mass ∧ 0 < c9_b1.mass ∧
    0 < c9_b1.physical_radius ∧ 0 < c9_b2.physical_radius ∧
    softening c9_b1 c9_b2 = 0.7 * (c9_b1.physical_radius + c9_b2.physical_radius) ∧
    0 < softening c9_b1 c9_b2 ∧ 0 < softened_distance c9_b1 c9_b2 :=
  have h := C9_softening_positive c9_b1 c9_b2 rfl
    (by norm_num [c9_b1, mk_body]) (by norm_num [c9_b1, mk_body])
    (by norm_num [c9_b2, mk_body])
  ⟨rfl, by norm_num [c9_b1, mk_body], by norm_num [c9_b1, mk_body],
    by norm_num [c9_b2, mk_body], h.1, h.2.1, h.2.2⟩

/-!
## C2 — zero bodies in range: defined edge case or panic?
-/

def c2_far : Body := mk_body 31 1 (AU * 20, 0) 1 (0, 0) false

def c2_reg : OrbitalBodies := ⟨[c2_far], []⟩

/-- C2 (code bug): with zero bodies inside the configured maximum radial
distance (here one body at 20 AU against the 10 AU default), `bin_bodies`
reaches `max_by(...).unwrap()` on an empty selection — modelled as `none`,
i.e. a panic — so the collision pass aborts instead of completing with zero
bins and zero outcomes. -/
theorem C2_empty_range_panics :
    bin_bodies c2_reg BinBodiesParam.default = none ∧
    handle_collisions c2_reg = none := by
  have hnr : ¬ body_in_range BinBodiesParam.default.max_distance c2_far := by
    unfold body_in_range BinBodiesParam.default MAX_DISTANCE_DEFAULT
    rw [show c2_far.pos.1 = AU * 20 from rfl, show c2_far.pos.2 = (0 : ℝ) from rfl,
      powf_two, powf_two, show ((0:ℝ)) ^ 2 = 0 by norm_num, add_zero,
      Real.sqrt_sq (by norm_num [AU])]
    norm_num [AU]
  have hempty : in_range_bodies c2_reg BinBodiesParam.default.max_distance = [] := by
    unfold in_range_bodies
    rw [show c2_reg.iter = [c2_far] from rfl]
    simp [hnr]
  have hb : bin_bodies c2_reg BinBodiesParam.default = none := by
    unfold bin_bodies
    rw [hempty]
    rfl
  refine ⟨hb, ?_⟩
  unfold handle_collisions compute_collisions_spatial_hash
  rw [hb]
  rfl


/-!
## C8 — spatial hash vs exhaustive pairwise pass, helper lemmas
-/

theorem filterP_eq_self {p : Body → Prop} {l : List Body} (h : ∀ b ∈ l, p b) :
    (l.flatMap fun b => if p b then [b] else []) = l := by
  induction l with
  | nil => rfl
  | cons a as ih =>
    rw [List.flatMap_cons, if_pos (h a (List.mem_cons_self a as)),
      ih (fun b hb => h b (List.mem_cons_of_mem a hb))]
    rfl

theorem foldl_max_const (c : ℝ) (xs : List ℝ) (h : ∀ y ∈ xs, y = c) :
    xs.foldl max c = c := by
  induction xs with
  | nil => rfl
  | cons y ys ih =>
    rw [List.foldl_cons, h y (List.mem_cons_self y ys), max_self]
    exact ih (fun z hz => h z (List.mem_cons_of_mem y hz))

theorem max_list_const {l : List ℝ} {c : ℝ} (hne : l ≠ []) (h : ∀ x ∈ l, x = c) :
    max_list l = some c := by
  cases l with
  | nil => exact absurd rfl hne
  | cons x xs =>
    have hx : x = c := h x (List.mem_cons_self x xs)
    subst hx
    show some (List.foldl max x xs) = some x
    rw [foldl_max_const x xs (fun z hz => h z (List.mem_cons_of_mem x hz))]

theorem set_getD_self {α : Type} (l : List α) (i : ℕ) (d : α) (h : i < l.length) :
    l.set i (l.getD i d) = l := by
  have hd : l.getD i d = l[i] := by
    rw [List.getD_eq_getElem?_getD, List.getElem?_eq_getElem h]
    rfl
  rw [hd]
  apply List.ext_getElem
  · simp
  · intro n h1 h2
    rw [List.getElem_set]
    split
    · simp_all
    · rfl

theorem foldl_congr_mem {α β : Type} {l : List β} {f g : α → β → α}
    (h : ∀ a b, b ∈ l → f a b = g a b) : ∀ a0, l.foldl f a0 = l.foldl g a0 := by
  induction l with
  | nil => intro a0; rfl
  | cons b bs ih =>
    intro a0
    rw [List.foldl_cons, List.foldl_cons, h a0 b (List.mem_cons_self b bs)]
    exact ih (fun a x hx => h a x (List.mem_cons_of_mem b hx)) _

theorem getD_replicate_nil {α : Type} (n i : ℕ) :
    (List.replicate n ([] : List α)).getD i [] = [] := by
  rw [List.getD_eq_getElem?_getD, List.getElem?_replicate]
  split <;> rfl

theorem foldl_insert_bin_const (l : List Body) (idx : ℕ) :
    ∀ bins : List (List ℕ), idx < bins.length →
      l.foldl (fun bins b => insert_bin bins idx b.id) bins
        = bins.set idx (bins.getD idx [] ++ l.map Body.id) := by
  induction l with
  | nil =>
    intro bins h
    rw [List.foldl_nil, List.map_nil, List.append_nil, set_getD_self _ _ _ h]
  | cons b bs ih =>
    intro bins h
    rw [List.foldl_cons]
    have hlen : idx < (insert_bin bins idx b.id).length := by
      unfold insert_bin
      rw [List.length_set]
      exact h
    rw [ih _ hlen]
    unfold insert_bin
    have hget : (bins.set idx (bins.getD idx [] ++ [b.id]))[idx]?
        = some (bins.getD idx [] ++ [b.id]) := by
      rw [List.getElem?_set]
      simp [h]
    have hgd : (bins.set idx (bins.getD idx [] ++ [b.id])).getD idx []
        = bins.getD idx [] ++ [b.id] := by
      rw [List.getD_eq_getElem?_getD, hget]
      rfl
    rw [hgd, List.set_set, List.map_cons, List.append_assoc]
    rfl

theorem flatten_replicate_nil {α : Type} (n : ℕ) :
    (List.replicate n ([] : List α)).flatten = [] := by
  induction n with
  | zero => rfl
  | succ n ih =>
    rw [List.replicate_succ, List.flatten_cons, ih]
    rfl

theorem flatten_map_set_replicate {α : Type} (f : List ℕ → List α) (hf : f [] = [])
    (v : List ℕ) : ∀ (n : ℕ), ∀ idx < n,
      (((List.replicate n ([] : List ℕ)).set idx v).map f).flatten = f v := by
  intro n
  induction n with
  | zero => intro idx h; omega
  | succ n ih =>
    intro idx h
    cases idx with
    | zero =>
      rw [List.replicate_succ, List.set_cons_zero, List.map_cons, List.flatten_cons,
        List.map_replicate, hf, flatten_replicate_nil, List.append_nil]
    | succ i =>
      rw [List.replicate_succ, List.set_cons_succ, List.map_cons, List.flatten_cons,
        hf, List.nil_append]
      exact ih i (by omega)

theorem find_by_id_of_mem_nodup {l : List Body} (hn : (l.map Body.id).Nodup)
    {b : Body} (hb : b ∈ l) : find_by_id b.id l = some b := by
  induction l with
  | nil => cases hb
  | cons a as ih =>
    rw [List.map_cons, List.nodup_cons] at hn
    rcases List.mem_cons.mp hb with rfl | hmem
    · unfold find_by_id
      rw [List.find?_cons, beq_self_eq_true b.id]
    · have hne : (a.id == b.id) = false := by
        simp only [beq_eq_false_iff_ne, ne_eq]
        intro he
        exact hn.1 (he ▸ List.mem_map.mpr ⟨b, hmem, rfl⟩)
      unfold find_by_id
      rw [List.find?_cons, hne]
      exact ih hn.2 hmem

theorem get_by_id_of_mem_nodup (r : OrbitalBodies)
    (hn : (r.iter.map Body.id).Nodup) {b : Body} (hb : b ∈ r.iter) :
    r.get_by_id b.id = some b := by
  unfold OrbitalBodies.iter at hb hn
  rw [List.map_append] at hn
  obtain ⟨hn0, hn1, hdis⟩ := List.nodup_append.mp hn
  rcases List.mem_append.mp hb with h0 | h1
  · unfold OrbitalBodies.get_by_id
    rw [find_by_id_of_mem_nodup hn0 h0]
    rfl
  · have h0none : find_by_id b.id r.tier0 = none :=
      find_by_id_none_iff_map.mpr
        (fun hmem => hdis hmem (List.mem_map.mpr ⟨b, h1, rfl⟩))
    unfold OrbitalBodies.get_by_id
    rw [h0none, find_by_id_of_mem_nodup hn1 h1]
    rfl

theorem map_lookup_restore (r : OrbitalBodies)
    (hn : (r.iter.map Body.id).Nodup) :
    (r.iter.map Body.id).map (fun i => (r.get_by_id i).getD default) = r.iter := by
  rw [List.map_map]
  have h : ∀ b ∈ r.iter,
      ((fun i => (r.get_by_id i).getD default) ∘ Body.id) b = id b := by
    intro b hb
    simp only [Function.comp_apply, id_eq]
    rw [get_by_id_of_mem_nodup r hn hb]
    rfl
  rw [List.map_congr_left h, List.map_id]

/-- When every body sits at the same in-range position `p` and the grid has
at least one bin, every body is inserted into the single cell determined by
`p`, and `bins_of` is the empty grid with that one cell holding all ids in
iteration order. -/
theorem bins_of_same_pos (r : OrbitalBodies) (params : BinBodiesParam)
    (m0 : ℝ) (p : Vec2)
    (hfil : in_range_bodies r params.max_distance = r.iter)
    (hpos : ∀ b ∈ r.iter, b.pos = p)
    (hc1 : 1 ≤ ⌊m0 * 2 / params.bin_width⌋₊) :
    bins_of r params m0 =
      (List.replicate (⌊m0 * 2 / params.bin_width⌋₊ * ⌊m0 * 2 / params.bin_width⌋₊)
          ([] : List ℕ)).set
        (min ⌊(p.1 + m0 * 2 / 2) / params.bin_width⌋₊ (⌊m0 * 2 / params.bin_width⌋₊ - 1)
          + min ⌊(p.2 + m0 * 2 / 2) / params.bin_width⌋₊ (⌊m0 * 2 / params.bin_width⌋₊ - 1)
            * ⌊m0 * 2 / params.bin_width⌋₊)
        (r.iter.map Body.id) := by
  have hcc : 0 < ⌊m0 * 2 / params.bin_width⌋₊ * ⌊m0 * 2 / params.bin_width⌋₊ :=
    Nat.mul_pos hc1 hc1
  have hidx : min ⌊(p.1 + m0 * 2 / 2) / params.bin_width⌋₊
        (⌊m0 * 2 / params.bin_width⌋₊ - 1)
      + min ⌊(p.2 + m0 * 2 / 2) / params.bin_width⌋₊
        (⌊m0 * 2 / params.bin_width⌋₊ - 1) * ⌊m0 * 2 / params.bin_width⌋₊
      < ⌊m0 * 2 / params.bin_width⌋₊ * ⌊m0 * 2 / params.bin_width⌋₊ := by
    have h1 := min_le_right ⌊(p.1 + m0 * 2 / 2) / params.bin_width⌋₊
      (⌊m0 * 2 / params.bin_width⌋₊ - 1)
    have h2 := min_le_right ⌊(p.2 + m0 * 2 / 2) / params.bin_width⌋₊
      (⌊m0 * 2 / params.bin_width⌋₊ - 1)
    have h3 := Nat.mul_le_mul_right ⌊m0 * 2 / params.bin_width⌋₊ h2
    have key : (⌊m0 * 2 / params.bin_width⌋₊ - 1)
        + (⌊m0 * 2 / params.bin_width⌋₊ - 1) * ⌊m0 * 2 / params.bin_width⌋₊
        < ⌊m0 * 2 / params.bin_width⌋₊ * ⌊m0 * 2 / params.bin_width⌋₊ := by
      obtain ⟨k, hk⟩ : ∃ k, ⌊m0 * 2 / params.bin_width⌋₊ = k + 1 :=
        ⟨⌊m0 * 2 / params.bin_width⌋₊ - 1, by omega⟩
      rw [hk]
      simp only [Nat.add_sub_cancel]
      nlinarith
    calc min ⌊(p.1 + m0 * 2 / 2) / params.bin_width⌋₊
          (⌊m0 * 2 / params.bin_width⌋₊ - 1)
        + min ⌊(p.2 + m0 * 2 / 2) / params.bin_width⌋₊
          (⌊m0 * 2 / params.bin_width⌋₊ - 1) * ⌊m0 * 2 / params.bin_width⌋₊
        ≤ (⌊m0 * 2 / params.bin_width⌋₊ - 1)
          + (⌊m0 * 2 / params.bin_width⌋₊ - 1) * ⌊m0 * 2 / params.bin_width⌋₊ :=
          Nat.add_le_add h1 h3
      _ < _ := key
  simp only [bins_of]
  rw [if_pos (by rw [List.length_replicate]; exact hcc)]
  rw [hfil]
  have hcongr : ∀ (bins : List (List ℕ)) (b : Body), b ∈ r.iter →
      insert_bin bins
        (min ⌊(b.pos.1 + m0 * 2 / 2) / params.bin_width⌋₊
            (⌊m0 * 2 / params.bin_width⌋₊ - 1)
          + min ⌊(b.pos.2 + m0 * 2 / 2) / params.bin_width⌋₊
            (⌊m0 * 2 / params.bin_width⌋₊ - 1) * ⌊m0 * 2 / params.bin_width⌋₊) b.id
      = insert_bin bins
        (min ⌊(p.1 + m0 * 2 / 2) / params.bin_width⌋₊
            (⌊m0 * 2 / params.bin_width⌋₊ - 1)
          + min ⌊(p.2 + m0 * 2 / 2) / params.bin_width⌋₊
            (⌊m0 * 2 / params.bin_width⌋₊ - 1) * ⌊m0 * 2 / params.bin_width⌋₊) b.id := by
    intro bins b hb
    rw [hpos b hb]
  rw [foldl_congr_mem hcongr]
  rw [foldl_insert_bin_const r.iter _ _ (by rw [List.length_replicate]; exact hidx)]
  rw [getD_replicate_nil, List.nil_append]

/-- Core equivalence: a same-position registry whose shared position is in
range and yields at least one bin gets spatial-hash outcomes identical to
the exhaustive pairwise pass. -/
theorem spatial_hash_same_pos_eq (r : OrbitalBodies) (p : Vec2)
    (hpos : ∀ b ∈ r.iter, b.pos = p)
    (hin : Real.sqrt (powf p.1 2 + powf p.2 2) < MAX_DISTANCE_DEFAULT)
    (hne : r.iter ≠ [])
    (hbc : 1 ≤ ⌊max |p.1| |p.2| * 2 / BIN_WIDTH_DEFAULT⌋₊)
    (hnodup : (r.iter.map Body.id).Nodup) :
    compute_collisions_spatial_hash r = some (compute_pairwise_collisions r) := by
  have hmd : BinBodiesParam.default.max_distance = MAX_DISTANCE_DEFAULT := rfl
  have hbw : BinBodiesParam.default.bin_width = BIN_WIDTH_DEFAULT := rfl
  have hin' : ∀ b ∈ r.iter, body_in_range BinBodiesParam.default.max_distance b := by
    intro b hb
    unfold body_in_range
    rw [hmd, hpos b hb]
    exact hin
  have hfil : in_range_bodies r BinBodiesParam.default.max_distance = r.iter := by
    unfold in_range_bodies
    exact filterP_eq_self hin'
  have hmax : max_list ((in_range_bodies r BinBodiesParam.default.max_distance).map
      (fun b => max |b.pos.1| |b.pos.2|)) = some (max |p.1| |p.2|) := by
    rw [hfil]
    refine max_list_const (fun hmape => hne (List.map_eq_nil_iff.mp hmape)) ?_
    intro x hx
    obtain ⟨b, hb, rfl⟩ := List.mem_map.mp hx
    rw [hpos b hb]
  have hbb : bin_bodies r BinBodiesParam.default
      = some (bins_of r BinBodiesParam.default (max |p.1| |p.2|)) := by
    unfold bin_bodies
    rw [hmax]
  have hc1 : 1 ≤ ⌊max |p.1| |p.2| * 2 / BinBodiesParam.default.bin_width⌋₊ := by
    rw [hbw]
    exact hbc
  have hbins := bins_of_same_pos r BinBodiesParam.default (max |p.1| |p.2|) p hfil hpos hc1
  have hidx : min ⌊(p.1 + max |p.1| |p.2| * 2 / 2) / BinBodiesParam.default.bin_width⌋₊
        (⌊max |p.1| |p.2| * 2 / BinBodiesParam.default.bin_width⌋₊ - 1)
      + min ⌊(p.2 + max |p.1| |p.2| * 2 / 2) / BinBodiesParam.default.bin_width⌋₊
        (⌊max |p.1| |p.2| * 2 / BinBodiesParam.default.bin_width⌋₊ - 1)
          * ⌊max |p.1| |p.2| * 2 / BinBodiesParam.default.bin_width⌋₊
      < ⌊max |p.1| |p.2| * 2 / BinBodiesParam.default.bin_width⌋₊
          * ⌊max |p.1| |p.2| * 2 / BinBodiesParam.default.bin_width⌋₊ := by
    have h1 := min_le_right
      ⌊(p.1 + max |p.1| |p.2| * 2 / 2) / BinBodiesParam.default.bin_width⌋₊
      (⌊max |p.1| |p.2| * 2 / BinBodiesParam.default.bin_width⌋₊ - 1)
    have h2 := min_le_right
      ⌊(p.2 + max |p.1| |p.2| * 2 / 2) / BinBodiesParam.default.bin_width⌋₊
      (⌊max |p.1| |p.2| * 2 / BinBodiesParam.default.bin_width⌋₊ - 1)
    have h3 := Nat.mul_le_mul_right
      ⌊max |p.1| |p.2| * 2 / BinBodiesParam.default.bin_width⌋₊ h2
    have key : (⌊max |p.1| |p.2| * 2 / BinBodiesParam.default.bin_width⌋₊ - 1)
        + (⌊max |p.1| |p.2| * 2 / BinBodiesParam.default.bin_width⌋₊ - 1)
          * ⌊max |p.1| |p.2| * 2 / BinBodiesParam.default.bin_width⌋₊
        < ⌊max |p.1| |p.2| * 2 / BinBodiesParam.default.bin_width⌋₊
          * ⌊max |p.1| |p.2| * 2 / BinBodiesParam.default.bin_width⌋₊ := by
      obtain ⟨k, hk⟩ : ∃ k,
          ⌊max |p.1| |p.2| * 2 / BinBodiesParam.default.bin_width⌋₊ = k + 1 :=
        ⟨⌊max |p.1| |p.2| * 2 / BinBodiesParam.default.bin_width⌋₊ - 1, by omega⟩
      rw [hk]
      simp only [Nat.add_sub_cancel]
      nlinarith
    exact lt_of_le_of_lt (Nat.add_le_add h1 h3) key
  unfold compute_collisions_spatial_hash
  rw [hbb, Option.map_some', hbins]
  refine congrArg some ?_
  rw [flatten_map_set_replicate
    (fun bin => compute_pairwise_collision_slice
      (bin.map fun id => (r.get_by_id id).getD default)) rfl
    (r.iter.map Body.id) _ _ hidx]
  rw [map_lookup_restore r hnodup]
  rfl

/-- C8 (corrected): when all bodies share one position `p`, `p` is within the
default maximum radial distance, the registry is nonempty, ids are distinct,
and the derived grid has at least one bin (`⌊2·max(|p.x|,|p.y|) / bin_width⌋ ≥ 1`),
the spatial-hash pass puts every body into one bin and returns exactly the
outcomes of the exhaustive pairwise pass over the whole registry.  (Without
the at-least-one-bin condition the claim fails: see the counterexample.) -/
theorem C8_spatial_hash_matches_pairwise (r : OrbitalBodies) (p : Vec2)
    (hpos : ∀ b ∈ r.iter, b.pos = p)
    (hin : Real.sqrt (powf p.1 2 + powf p.2 2) < MAX_DISTANCE_DEFAULT)
    (hne : r.iter ≠ [])
    (hbc : 1 ≤ ⌊max |p.1| |p.2| * 2 / BIN_WIDTH_DEFAULT⌋₊)
    (hnodup : (r.iter.map Body.id).Nodup) :
    compute_collisions_spatial_hash r = some (compute_pairwise_collisions r) :=
  spatial_hash_same_pos_eq r p hpos hin hne hbc hnodup

def c8_b1 : Body := mk_body 41 2 (AU, 0) 1 (0, 0) false

def c8_b2 : Body := mk_body 42 1 (AU, 0) 1 (0, 0) false

def c8_reg : OrbitalBodies := ⟨[c8_b1, c8_b2], []⟩

/-- Witness for C8: two bodies at `(AU, 0)` (inside the 10 AU default range;
the grid is 4×4, so at least one bin exists). -/
theorem C8_spatial_hash_matches_pairwise_witness :
    (∀ b ∈ c8_reg.iter, b.pos = ((AU : ℝ), (0 : ℝ))) ∧
    Real.sqrt (powf (AU : ℝ) 2 + powf (0 : ℝ) 2) < MAX_DISTANCE_DEFAULT ∧
    c8_reg.iter ≠ [] ∧
    1 ≤ ⌊max |(AU : ℝ)| |(0 : ℝ)| * 2 / BIN_WIDTH_DEFAULT⌋₊ ∧
    (c8_reg.iter.map Body.id).Nodup ∧
    compute_collisions_spatial_hash c8_reg = some (compute_pairwise_collisions c8_reg) := by
  have hpos : ∀ b ∈ c8_reg.iter, b.pos = ((AU : ℝ), (0 : ℝ)) := by
    intro b hb
    simp only [c8_reg, OrbitalBodies.iter, List.append_nil] at hb
    rcases List.mem_cons.mp hb with rfl | hb2
    · rfl
    · rcases List.mem_cons.mp hb2 with rfl | hb3
      · rfl
      · cases hb3
  have hin : Real.sqrt (powf (AU : ℝ) 2 + powf (0 : ℝ) 2) < MAX_DISTANCE_DEFAULT := by
    rw [powf_two, powf_two,
      show ((0 : ℝ)) ^ 2 = 0 by norm_num, add_zero,
      Real.sqrt_sq (by norm_num [AU])]
    norm_num [AU, MAX_DISTANCE_DEFAULT]
  have hne : c8_reg.iter ≠ [] := by
    simp [c8_reg, OrbitalBodies.iter]
  have hbc : 1 ≤ ⌊max |(AU : ℝ)| |(0 : ℝ)| * 2 / BIN_WIDTH_DEFAULT⌋₊ := by
    rw [show max |(AU : ℝ)| |(0 : ℝ)| * 2 / BIN_WIDTH_DEFAULT = (4 : ℝ) by
      rw [abs_of_pos (by norm_num [AU] : (0 : ℝ) < AU), abs_zero,
        max_eq_left (by norm_num [AU] : (0 : ℝ) ≤ AU)]
      norm_num [AU, BIN_WIDTH_DEFAULT]]
    norm_num
  have hnodup : (c8_reg.iter.map Body.id).Nodup := by
    simp [c8_reg, OrbitalBodies.iter, c8_b1, c8_b2, mk_body]
  exact ⟨hpos, hin, hne, hbc, hnodup,
    C8_spatial_hash_matches_pairwise c8_reg ((AU : ℝ), (0 : ℝ)) hpos hin hne hbc hnodup⟩

/-! ## Merge-application helper lemmas (C6) -/

theorem find_update_first {f : Body → Body} (hf : ∀ b, (f b).id = b.id)
    (i : ℕ) (l : List Body) :
    find_by_id i (update_first_by_id i f l) = (find_by_id i l).map f := by
  induction l with
  | nil => rfl
  | cons b bs ih =>
    by_cases h : b.id = i
    · simp only [update_first_by_id, if_pos h]
      unfold find_by_id
      rw [List.find?_cons, List.find?_cons,
        show (b.id == i) = true by simp [h],
        show ((f b).id == i) = true by simp [hf b, h]]
      rfl
    · simp only [update_first_by_id, if_neg h]
      unfold find_by_id
      rw [List.find?_cons, List.find?_cons,
        show (b.id == i) = false by simp [h]]
      exact ih

theorem get_by_id_modify_self (f : Body → Body) (hf : ∀ b, (f b).id = b.id)
    (r : OrbitalBodies) (i : ℕ) :
    (r.modify_by_id i f).get_by_id i = (r.get_by_id i).map f := by
  unfold OrbitalBodies.modify_by_id
  by_cases h : (find_by_id i r.tier0).isSome
  · rw [if_pos h]
    obtain ⟨b, hb⟩ := Option.isSome_iff_exists.mp h
    unfold OrbitalBodies.get_by_id
    rw [find_update_first hf, hb]
    rfl
  · rw [if_neg h]
    have hnone : find_by_id i r.tier0 = none := Option.not_isSome_iff_eq_none.mp h
    unfold OrbitalBodies.get_by_id
    rw [hnone, find_update_first hf]
    rfl

theorem apply_merge_overwrites (r : OrbitalBodies) (i : ℕ) (nm : ℝ) (nv : Vec2)
    (h : (r.get_by_id i).isSome) :
    ∃ b, r.get_by_id i = some b ∧
      (apply_collision r (.Merge i nm nv)).get_by_id i
        = some { b with mass := nm, velocity := nv } := by
  obtain ⟨b, hb⟩ := Option.isSome_iff_exists.mp h
  refine ⟨b, hb, ?_⟩
  simp only [apply_collision]
  rw [if_pos h, get_by_id_modify_self
    (fun b : Body => { b with mass := nm, velocity := nv }) (fun _ => rfl) r i, hb]
  rfl

def c8c_b1 : Body := mk_body 45 2 (0, 0) 1 (0, 0) false

def c8c_b2 : Body := mk_body 46 1 (0, 0) 1 (0, 0) false

def c8c_reg : OrbitalBodies := ⟨[c8c_b1, c8c_b2], []⟩

/-- C8 counterexample: two overlapping bodies at the ORIGIN are in range,
but the bounding width is 0, so the grid has zero bins: the spatial pass
returns no outcomes while the exhaustive pairwise pass detects the
collision — the two passes do not agree for every same-position set. -/
theorem C8_counterexample :
    compute_collisions_spatial_hash c8c_reg = some [] ∧
    compute_pairwise_collisions c8c_reg ≠ [] := by
  have hr : body_in_range BinBodiesParam.default.max_distance c8c_b1 := by
    unfold body_in_range
    rw [show c8c_b1.pos.1 = (0 : ℝ) from rfl, show c8c_b1.pos.2 = (0 : ℝ) from rfl,
      powf_two]
    norm_num [BinBodiesParam.default, MAX_DISTANCE_DEFAULT, AU]
  have hr2 : body_in_range BinBodiesParam.default.max_distance c8c_b2 := by
    unfold body_in_range
    rw [show c8c_b2.pos.1 = (0 : ℝ) from rfl, show c8c_b2.pos.2 = (0 : ℝ) from rfl,
      powf_two]
    norm_num [BinBodiesParam.default, MAX_DISTANCE_DEFAULT, AU]
  have hfil : in_range_bodies c8c_reg BinBodiesParam.default.max_distance
      = [c8c_b1, c8c_b2] := by
    unfold in_range_bodies
    rw [show c8c_reg.iter = [c8c_b1, c8c_b2] from rfl]
    simp [hr, hr2]
  have hmax : max_list ((in_range_bodies c8c_reg BinBodiesParam.default.max_distance).map
      (fun b => max |b.pos.1| |b.pos.2|)) = some 0 := by
    rw [hfil]
    refine max_list_const (by simp) ?_
    intro x hx
    rcases List.mem_cons.mp hx with rfl | hx2
    · show max |c8c_b1.pos.1| |c8c_b1.pos.2| = 0
      rw [show c8c_b1.pos.1 = (0 : ℝ) from rfl, show c8c_b1.pos.2 = (0 : ℝ) from rfl]
      simp
    · rcases List.mem_cons.mp hx2 with rfl | hx3
      · show max |c8c_b2.pos.1| |c8c_b2.pos.2| = 0
        rw [show c8c_b2.pos.1 = (0 : ℝ) from rfl, show c8c_b2.pos.2 = (0 : ℝ) from rfl]
        simp
      · cases hx3
  have hbins : bins_of c8c_reg BinBodiesParam.default 0 = [] := by
    simp only [bins_of]
    rw [show ⌊(0 : ℝ) * 2 / BinBodiesParam.default.bin_width⌋₊ = 0 by
      norm_num [BinBodiesParam.default, BIN_WIDTH_DEFAULT, AU]]
    simp
  have hbb : bin_bodies c8c_reg BinBodiesParam.default = some [] := by
    unfold bin_bodies
    rw [hmax]
    show some (bins_of c8c_reg BinBodiesParam.default 0) = some []
    rw [hbins]
  constructor
  · unfold compute_collisions_spatial_hash
    rw [hbb]
    rfl
  · have hc : collides c8c_b1 c8c_b2 := collides_same_pos _ _ rfl
      (by norm_num [c8c_b1, c8c_b2, mk_body])
    have hm : c8c_b2.mass < c8c_b1.mass := by norm_num [c8c_b1, c8c_b2, mk_body]
    unfold compute_pairwise_collisions
    rw [show c8c_reg.iter = [c8c_b1, c8c_b2] from rfl,
      slice_pair c8c_b1 c8c_b2 hm hc]
    simp


/-!
## C6 — fixed bodies and merging
-/

/-- C6 (corrected): collision outcome computation and application never
consult the `fixed` flag.  When the heavier of a colliding pair is fixed, it
IS selected as the merge survivor, and applying the resulting Merge
overwrites the fixed body's mass and velocity in the registry. -/
theorem C6_fixed_body_is_merged_into (b1 b2 : Body) (r : OrbitalBodies)
    (_hf : b1.fixed = true) (hm : b2.mass < b1.mass) (hc : collides b1 b2)
    (hr : (r.get_by_id b1.id).isSome) :
    append_collision b1 b2 = [.Destroyed b2.id, compute_merger b1 b2] ∧
    compute_merger b1 b2 = .Merge b1.id (b1.mass + b2.mass)
      ((b1.velocity.1 * b1.mass + b2.velocity.1 * b2.mass) / (b1.mass + b2.mass),
       (b1.velocity.2 * b1.mass + b2.velocity.2 * b2.mass) / (b1.mass + b2.mass)) ∧
    ∃ b, r.get_by_id b1.id = some b ∧
      (apply_collision r (compute_merger b1 b2)).get_by_id b1.id
        = some { b with
            mass := b1.mass + b2.mass,
            velocity :=
              ((b1.velocity.1 * b1.mass + b2.velocity.1 * b2.mass) / (b1.mass + b2.mass),
               (b1.velocity.2 * b1.mass + b2.velocity.2 * b2.mass) / (b1.mass + b2.mass)) } := by
  have hap : append_collision b1 b2 = [.Destroyed b2.id, compute_merger b1 b2] := by
    unfold append_collision
    rw [if_pos hc, if_pos hm]
  have hcm : compute_merger b1 b2 = .Merge b1.id (b1.mass + b2.mass)
      ((b1.velocity.1 * b1.mass + b2.velocity.1 * b2.mass) / (b1.mass + b2.mass),
       (b1.velocity.2 * b1.mass + b2.velocity.2 * b2.mass) / (b1.mass + b2.mass)) := rfl
  refine ⟨hap, hcm, ?_⟩
  rw [hcm]
  exact apply_merge_overwrites r b1.id _ _ hr

def c6_fixed : Body := mk_body 1 3 (AU, 0) 1 (0, 0) true

def c6_small : Body := mk_body 2 1 (AU, 0) 1 (2, 0) false

def c6_reg : OrbitalBodies := ⟨[c6_fixed, c6_small], []⟩

/-- Witness for C6: a fixed body of mass 3 and a mass-1 body at the same
point. -/
theorem C6_fixed_body_is_merged_into_witness :
    c6_fixed.fixed = true ∧ c6_small.mass < c6_fixed.mass ∧
    collides c6_fixed c6_small ∧ (c6_reg.get_by_id c6_fixed.id).isSome ∧
    append_collision c6_fixed c6_small
      = [.Destroyed c6_small.id, compute_merger c6_fixed c6_small] ∧
    compute_merger c6_fixed c6_small = .Merge c6_fixed.id (c6_fixed.mass + c6_small.mass)
      ((c6_fixed.velocity.1 * c6_fixed.mass + c6_small.velocity.1 * c6_small.mass)
          / (c6_fixed.mass + c6_small.mass),
       (c6_fixed.velocity.2 * c6_fixed.mass + c6_small.velocity.2 * c6_small.mass)
          / (c6_fixed.mass + c6_small.mass)) := by
  have hf : c6_fixed.fixed = true := rfl
  have hm : c6_small.mass < c6_fixed.mass := by norm_num [c6_fixed, c6_small, mk_body]
  have hc : collides c6_fixed c6_small :=
    collides_same_pos _ _ rfl (by norm_num [c6_fixed, c6_small, mk_body])
  have hr : (c6_reg.get_by_id c6_fixed.id).isSome := by
    rw [get_by_id_of_mem_nodup c6_reg
      (by simp [c6_reg, OrbitalBodies.iter, c6_fixed, c6_small, mk_body])
      (by simp [c6_reg, OrbitalBodies.iter])]
    rfl
  have h := C6_fixed_body_is_merged_into c6_fixed c6_small c6_reg hf hm hc hr
  exact ⟨hf, hm, hc, hr, h.1, h.2.1⟩

/-- C6 counterexample: one full default-parameter collision pass over a
registry holding a FIXED body of mass 3 and a mass-1 body at the same point
`(AU, 0)` ends with the fixed body's mass overwritten to 4 and its velocity
overwritten to `(1/2, 0)` — a fixed body was merged into. -/
theorem C6_counterexample :
    c6_fixed.fixed = true ∧ c6_fixed.mass = 3 ∧ c6_fixed.velocity = (0, 0) ∧
    ((handle_collisions c6_reg).bind (fun r2 => r2.get_by_id c6_fixed.id)).map
        (fun b => (b.fixed, b.mass, b.velocity))
      = some (true, 4, ((1 : ℝ) / 2, 0)) := by
  refine ⟨rfl, rfl, rfl, ?_⟩
  have hm : c6_small.mass < c6_fixed.mass := by norm_num [c6_fixed, c6_small, mk_body]
  have hc : collides c6_fixed c6_small :=
    collides_same_pos _ _ rfl (by norm_num [c6_fixed, c6_small, mk_body])
  have hpos : ∀ b ∈ c6_reg.iter, b.pos = ((AU : ℝ), (0 : ℝ)) := by
    intro b hb
    simp only [c6_reg, OrbitalBodies.iter, List.append_nil] at hb
    rcases List.mem_cons.mp hb with rfl | hb2
    · rfl
    · rcases List.mem_cons.mp hb2 with rfl | hb3
      · rfl
      · cases hb3
  have hin : Real.sqrt (powf (AU : ℝ) 2 + powf (0 : ℝ) 2) < MAX_DISTANCE_DEFAULT := by
    rw [powf_two, powf_two, show ((0 : ℝ)) ^ 2 = 0 by norm_num, add_zero,
      Real.sqrt_sq (by norm_num [AU])]
    norm_num [AU, MAX_DISTANCE_DEFAULT]
  have hne : c6_reg.iter ≠ [] := by simp [c6_reg, OrbitalBodies.iter]
  have hbc : 1 ≤ ⌊max |(AU : ℝ)| |(0 : ℝ)| * 2 / BIN_WIDTH_DEFAULT⌋₊ := by
    rw [show max |(AU : ℝ)| |(0 : ℝ)| * 2 / BIN_WIDTH_DEFAULT = (4 : ℝ) by
      rw [abs_of_pos (by norm_num [AU] : (0 : ℝ) < AU), abs_zero,
        max_eq_left (by norm_num [AU] : (0 : ℝ) ≤ AU)]
      norm_num [AU, BIN_WIDTH_DEFAULT]]
    norm_num
  have hnodup : (c6_reg.iter.map Body.id).Nodup := by
    simp [c6_reg, OrbitalBodies.iter, c6_fixed, c6_small, mk_body]
  have hsh := spatial_hash_same_pos_eq c6_reg ((AU : ℝ), (0 : ℝ)) hpos hin hne hbc hnodup
  have hslice : compute_pairwise_collisions c6_reg
      = [.Destroyed c6_small.id, compute_merger c6_fixed c6_small,
         .Destroyed c6_small.id, compute_merger c6_fixed c6_small] := by
    unfold compute_pairwise_collisions
    rw [show c6_reg.iter = [c6_fixed, c6_small] from rfl,
      slice_pair c6_fixed c6_small hm hc]
  have hcm : compute_merger c6_fixed c6_small
      = .Merge 1 4 ((1 : ℝ) / 2, 0) := by
    unfold compute_merger
    rw [show c6_fixed.mass = (3 : ℝ) from rfl, show c6_small.mass = (1 : ℝ) from rfl,
      show c6_fixed.velocity = ((0 : ℝ), (0 : ℝ)) from rfl,
      show c6_small.velocity = ((2 : ℝ), (0 : ℝ)) from rfl,
      show c6_fixed.id = 1 from rfl]
    norm_num
  have hfold : apply_collisions c6_reg
      [.Destroyed c6_small.id, CollisionResult.Merge 1 4 ((1 : ℝ) / 2, 0),
       .Destroyed c6_small.id, CollisionResult.Merge 1 4 ((1 : ℝ) / 2, 0)]
      = apply_collision (apply_collision c6_reg (.Destroyed c6_small.id))
          (.Merge 1 4 ((1 : ℝ) / 2, 0)) := by
    unfold apply_collisions
    simp only [List.foldl_cons, List.foldl_nil]
    exact apply_DM_twice c6_reg c6_small.id 1 4 ((1 : ℝ) / 2, 0)
  have hr1 : apply_collision c6_reg (.Destroyed c6_small.id)
      = ⟨[c6_fixed], []⟩ := by
    show c6_reg.remove c6_small.id = _
    unfold OrbitalBodies.remove
    rw [show c6_reg.tier0 = [c6_fixed, c6_small] from rfl,
      show c6_reg.tier1 = ([] : List Body) from rfl]
    rw [List.filter_cons, List.filter_cons]
    norm_num [c6_fixed, c6_small, mk_body]
  have hsome : ((⟨[c6_fixed], []⟩ : OrbitalBodies).get_by_id 1).isSome := by
    rw [show (⟨[c6_fixed], []⟩ : OrbitalBodies).get_by_id 1
      = some c6_fixed by
        rw [show (1 : ℕ) = c6_fixed.id from rfl]
        exact get_by_id_of_mem_nodup _ (by simp [OrbitalBodies.iter, c6_fixed, mk_body])
          (by simp [OrbitalBodies.iter])]
    rfl
  obtain ⟨b, hb, hres⟩ := apply_merge_overwrites ⟨[c6_fixed], []⟩ 1 4 ((1 : ℝ) / 2, 0) hsome
  have hbeq : b = c6_fixed := by
    have : (⟨[c6_fixed], []⟩ : OrbitalBodies).get_by_id 1 = some c6_fixed := by
      rw [show (1 : ℕ) = c6_fixed.id from rfl]
      exact get_by_id_of_mem_nodup _ (by simp [OrbitalBodies.iter, c6_fixed, mk_body])
        (by simp [OrbitalBodies.iter])
    rw [this] at hb
    exact (Option.some_inj.mp hb).symm
  subst hbeq
  unfold handle_collisions
  rw [hsh, Option.map_some', hslice, hcm, hfold, hr1]
  have hbind : ((some (apply_collision ⟨[c6_fixed], []⟩
        (CollisionResult.Merge 1 4 ((1 : ℝ) / 2, 0)))).bind
        (fun r2 => r2.get_by_id c6_fixed.id))
      = (apply_collision ⟨[c6_fixed], []⟩
          (CollisionResult.Merge 1 4 ((1 : ℝ) / 2, 0))).get_by_id c6_fixed.id := rfl
  rw [hbind, show c6_fixed.id = 1 from rfl, hres]
  rfl


/-!
## C3 — do all integrators leave fixed bodies untouched?
-/

def c3_body : Body := mk_body 3 1 (0, 0) 1 (1, 0) true

def c3_reg : OrbitalBodies := ⟨[c3_body], []⟩

/-- C3 (code bug, evaluation at the failing input): `Euler::step` has no
`fixed` check, so one Euler step with `dt = 1` moves a FIXED body with
velocity `(1, 0)` from `(0, 0)` to `(1, 0)` and appends to its position
history (`update_acceleration` zeroes a fixed body's acceleration, so the
velocity happens to survive, but position and history change). -/
theorem C3_euler_moves_fixed_body :
    c3_body.fixed = true ∧ c3_body.pos = (0, 0) ∧ c3_body.pos_list.length = 0 ∧
    ((euler_step c3_reg 1).get_by_id 3).map
        (fun b => (b.pos, b.velocity, b.pos_list.length))
      = some ((((1 : ℝ), (0 : ℝ))), (((1 : ℝ), (0 : ℝ))), 1) := by
  refine ⟨rfl, rfl, rfl, ?_⟩
  have hbody : (euler_step c3_reg 1).get_by_id 3
      = some (euler_step_body 1 c3_body) := rfl
  rw [hbody, Option.map_some']
  have hp : (euler_step_body 1 c3_body).pos
      = ((0 : ℝ) + ((1 : ℝ) + 0 * 1) * 1, (0 : ℝ) + ((0 : ℝ) + 0 * 1) * 1) := rfl
  have hv : (euler_step_body 1 c3_body).velocity
      = ((1 : ℝ) + 0 * 1, (0 : ℝ) + 0 * 1) := rfl
  have hl : (euler_step_body 1 c3_body).pos_list.length = 1 := rfl
  rw [hp, hv, hl]
  norm_num

/-!
## C1 — Kepler orbit: distance from the reference body or the origin?
-/

def c1_orbiting : Body := mk_body 51 1 (0, 0) 1 (0, 0) false

def c1_ref : Body := mk_body 52 1 (4, 0) 1 (0, 0) false

/-- C1 counterexample: with the reference body at `(4, 0)` (masses 1 and 1,
`a = 1`, `e = 0`, `theta = 0`) the initialized body's distance from the
REFERENCE BODY'S position is `9/2`, not the mass fraction times
`p/(1+e·cos θ) = 1/2`: `kepler_orbit` never reads the reference body's
position, so the result is NOT expressed relative to it. -/
theorem C1_counterexample :
    Real.sqrt (((kepler_orbit ⟨1, 0, 0⟩ c1_orbiting c1_ref).pos.1 - c1_ref.pos.1) ^ 2
        + ((kepler_orbit ⟨1, 0, 0⟩ c1_orbiting c1_ref).pos.2 - c1_ref.pos.2) ^ 2)
      ≠ (c1_ref.mass / (c1_orbiting.mass + c1_ref.mass))
        * ((1 : ℝ) * (1 - (0 : ℝ) ^ 2) / (1 + 0 * Real.cos 0)) := by
  have hpos1 : (kepler_orbit ⟨1, 0, 0⟩ c1_orbiting c1_ref).pos.1 = -(1 / 2) := by
    rw [show (kepler_orbit ⟨1, 0, 0⟩ c1_orbiting c1_ref).pos.1
        = -(c1_ref.mass / (c1_orbiting.mass + c1_ref.mass))
          * (Real.cos (0 : ℝ)
            * ((1 : ℝ) * (1 - powf 0 2) / (1 + 0 * Real.cos (0 : ℝ)))) from rfl,
      powf_two, Real.cos_zero]
    norm_num [c1_orbiting, c1_ref, mk_body]
  have hpos2 : (kepler_orbit ⟨1, 0, 0⟩ c1_orbiting c1_ref).pos.2 = 0 := by
    rw [show (kepler_orbit ⟨1, 0, 0⟩ c1_orbiting c1_ref).pos.2
        = -(c1_ref.mass / (c1_orbiting.mass + c1_ref.mass))
          * (Real.sin (0 : ℝ)
            * ((1 : ℝ) * (1 - powf 0 2) / (1 + 0 * Real.cos (0 : ℝ)))) from rfl,
      Real.sin_zero]
    norm_num
  rw [hpos1, hpos2, show c1_ref.pos.1 = (4 : ℝ) from rfl,
    show c1_ref.pos.2 = (0 : ℝ) from rfl,
    show (-(1 / 2 : ℝ) - 4) ^ 2 + ((0 : ℝ) - 0) ^ 2 = (9 / 2) ^ 2 by norm_num,
    Real.sqrt_sq (by norm_num : (0 : ℝ) ≤ 9 / 2), Real.cos_zero]
  norm_num [c1_ref, c1_orbiting, mk_body]

/-- C1 (corrected): for `a > 0`, `0 ≤ e < 1` and positive masses, the
initialized body's distance from the ORIGIN (not from the reference body's
position) equals the reference-body mass fraction times
`p/(1+e·cos θ)` with `p = a·(1-e²)`. -/
theorem C1_kepler_distance_from_origin (orb : OrbitParameters)
    (orbiting ref : Body) (ha : 0 < orb.a) (he0 : 0 ≤ orb.e) (he1 : orb.e < 1)
    (hmo : 0 < orbiting.mass) (hmr : 0 < ref.mass) :
    Real.sqrt ((kepler_orbit orb orbiting ref).pos.1 ^ 2
        + (kepler_orbit orb orbiting ref).pos.2 ^ 2)
      = (ref.mass / (orbiting.mass + ref.mass))
        * (orb.a * (1 - orb.e ^ 2) / (1 + orb.e * Real.cos orb.theta)) := by
  have hden : 0 < 1 + orb.e * Real.cos orb.theta := by
    nlinarith [Real.neg_one_le_cos orb.theta]
  have hR : 0 < orb.a * (1 - orb.e ^ 2) / (1 + orb.e * Real.cos orb.theta) := by
    apply div_pos
    · apply mul_pos ha
      nlinarith
    · exact hden
  have hc : 0 < ref.mass / (orbiting.mass + ref.mass) :=
    div_pos hmr (by linarith)
  have hpos1 : (kepler_orbit orb orbiting ref).pos.1
      = -(ref.mass / (orbiting.mass + ref.mass))
        * (Real.cos orb.theta
          * (orb.a * (1 - powf orb.e 2) / (1 + orb.e * Real.cos orb.theta))) := rfl
  have hpos2 : (kepler_orbit orb orbiting ref).pos.2
      = -(ref.mass / (orbiting.mass + ref.mass))
        * (Real.sin orb.theta
          * (orb.a * (1 - powf orb.e 2) / (1 + orb.e * Real.cos orb.theta))) := rfl
  rw [hpos1, hpos2, powf_two]
  rw [show (-(ref.mass / (orbiting.mass + ref.mass))
        * (Real.cos orb.theta
          * (orb.a * (1 - orb.e ^ 2) / (1 + orb.e * Real.cos orb.theta)))) ^ 2
      + (-(ref.mass / (orbiting.mass + ref.mass))
        * (Real.sin orb.theta
          * (orb.a * (1 - orb.e ^ 2) / (1 + orb.e * Real.cos orb.theta)))) ^ 2
      = ((ref.mass / (orbiting.mass + ref.mass))
          * (orb.a * (1 - orb.e ^ 2) / (1 + orb.e * Real.cos orb.theta))) ^ 2
        * (Real.sin orb.theta ^ 2 + Real.cos orb.theta ^ 2) by ring,
    Real.sin_sq_add_cos_sq, mul_one,
    Real.sqrt_sq (le_of_lt (mul_pos hc hR))]

/-- Witness for C1 at `a = 1`, `e = 0`, `theta = 0`, masses 1 and 1. -/
theorem C1_kepler_distance_from_origin_witness :
    (0 : ℝ) < 1 ∧ (0 : ℝ) ≤ 0 ∧ (0 : ℝ) < 1 ∧
    0 < c1_orbiting.mass ∧ 0 < c1_ref.mass ∧
    Real.sqrt ((kepler_orbit ⟨1, 0, 0⟩ c1_orbiting c1_ref).pos.1 ^ 2
        + (kepler_orbit ⟨1, 0, 0⟩ c1_orbiting c1_ref).pos.2 ^ 2)
      = (c1_ref.mass / (c1_orbiting.mass + c1_ref.mass))
        * ((1 : ℝ) * (1 - (0 : ℝ) ^ 2) / (1 + 0 * Real.cos 0)) := by
  refine ⟨by norm_num, le_refl 0, by norm_num,
    by norm_num [c1_orbiting, mk_body], by norm_num [c1_ref, mk_body], ?_⟩
  exact C1_kepler_distance_from_origin ⟨1, 0, 0⟩ c1_orbiting c1_ref
    (by norm_num) (le_refl 0) (by norm_num)
    (by norm_num [c1_orbiting, mk_body]) (by norm_num [c1_ref, mk_body])

end

end Orbital
